import Mathlib

/-
Verification of the category-aware field-visibility and fact-selection logic
of the Best Muscat detail page (src/assets/tool.js).

The record model is a shallow embedding of the JSON values the page consumes:
a business record is an association list from field names to JSON values.
JavaScript coercions (truthiness, String(...), Array.prototype.join) are
modelled explicitly; a predicate that may throw is modelled as a function
into Option Bool, where none stands for a thrown error.
-/

set_option autoImplicit false

namespace BestMuscat

/- JSON-like values, as consumed by tool.js. Arrays and objects are given
dedicated list types so that all recursions below are structural. -/
mutual
inductive Val : Type where
  | vnull : Val
  | vbool (b : Bool) : Val
  | vnum (n : Int) : Val
  | vstr (s : String) : Val
  | varr (elems : ValList) : Val
  | vobj (fields : ValObj) : Val

inductive ValList : Type where
  | nil : ValList
  | cons (hd : Val) (tl : ValList) : ValList

inductive ValObj : Type where
  | nil : ValObj
  | cons (key : String) (value : Val) (tl : ValObj) : ValObj
end

/-- A business record: an association list from field names to values
(JS object; keys assumed unique, lookup takes the first match). -/
abbrev Item := List (String × Val)

/-- Field access `item[c]`; none models `undefined`. -/
def getField : Item → String → Option Val
  | [], _ => none
  | (k, v) :: rest, key => if k == key then some v else getField rest key

/-- Property access `v.k` on an arbitrary value: only objects yield
a defined property here (strings/arrays have no such named fields). -/
def lookupObj : ValObj → String → Option Val
  | .nil, _ => none
  | .cons k v tl, key => if k == key then some v else lookupObj tl key

/-- Property access `v.k`; none models `undefined`. -/
def propOf : Val → String → Option Val
  | .vobj fs, k => lookupObj fs k
  | _, _ => none

/-- JavaScript truthiness. -/
def truthy : Val → Bool
  | .vnull => false
  | .vbool b => b
  | .vnum n => n != 0
  | .vstr s => s != ""
  | .varr _ => true
  | .vobj _ => true

/-- Truthiness of a possibly-undefined value. -/
def truthyOpt : Option Val → Bool
  | some v => truthy v
  | none => false

/-- JS `a || b` on possibly-undefined values: the first operand if truthy,
otherwise the second. -/
def jsOrOpt (a b : Option Val) : Option Val :=
  match a with
  | some v => if truthy v then some v else b
  | none => b

/-- Whitespace for the purposes of JS `String.prototype.trim` (ASCII part). -/
def isWS (c : Char) : Bool :=
  c == ' ' || c == '\t' || c == '\n' || c == '\r' || c == '\x0b' || c == '\x0c'

/-- Model of JS `.trim()`. -/
def jsTrim (s : String) : String :=
  String.mk (((s.data.dropWhile isWS).reverse.dropWhile isWS).reverse)

/-- Model of JS `.toLowerCase()` (ASCII letters). -/
def jsLowerChar (c : Char) : Char :=
  if 'A' ≤ c && c ≤ 'Z' then Char.ofNat (c.toNat + 32) else c

/-- Model of JS `.toLowerCase()`. -/
def jsLower (s : String) : String :=
  String.mk (s.data.map jsLowerChar)

/-- Model of JS `.toUpperCase()` on a single ASCII character. -/
def jsUpperChar (c : Char) : Char :=
  if 'a' ≤ c && c ≤ 'z' then Char.ofNat (c.toNat - 32) else c

/-- Model of JS `String.prototype.startsWith`. -/
def beginsWith (p s : String) : Bool :=
  List.isPrefixOf p.data s.data

/- Model of JS `String(v)` (ToString for JSON values; arrays join with ","
mapping null elements to the empty string, objects print as
"[object Object]"). -/
mutual
def jsToString : Val → String
  | .vnull => "null"
  | .vbool b => cond b "true" "false"
  | .vnum n => toString n
  | .vstr s => s
  | .vobj _ => "[object Object]"
  | .varr xs => jsArrJoin "," xs

def jsArrJoin : String → ValList → String
  | _, .nil => ""
  | _, .cons Val.vnull ValList.nil => ""
  | _, .cons v ValList.nil => jsToString v
  | sep, .cons Val.vnull tl => "" ++ sep ++ jsArrJoin sep tl
  | sep, .cons v tl => jsToString v ++ sep ++ jsArrJoin sep tl
end

/-! ### Shared slug utility (tool.js `slugify`) -/

/-- Characters the slugifier keeps: `[a-z0-9]` (after lowercasing). -/
def isLowerAlnum (c : Char) : Bool :=
  ('a' ≤ c && c ≤ 'z') || ('0' ≤ c && c ≤ '9')

/-- Replace every run of characters outside `[a-z0-9]` with a single hyphen
(the `replace(/[^a-z0-9]+/g,"-")` step). The Bool flag records whether the
previous emitted character was the hyphen for the current run. -/
def collapseNonAlnum : List Char → Bool → List Char
  | [], _ => []
  | c :: rest, prevHyphen =>
    if isLowerAlnum c then c :: collapseNonAlnum rest false
    else if prevHyphen then collapseNonAlnum rest true
    else '-' :: collapseNonAlnum rest true

/-- Drop a single leading hyphen (`replace(/(^-|-$)/g,"")`, leading half). -/
def dropLeadHyphen : List Char → List Char
  | '-' :: rest => rest
  | cs => cs

/-- tool.js `slugify`: lowercase, collapse non-alphanumeric runs to `-`,
strip a leading/trailing hyphen. -/
def slugify (s : String) : String :=
  let collapsed := collapseNonAlnum (jsLower s).data false
  String.mk ((dropLeadHyphen (dropLeadHyphen collapsed).reverse).reverse)

/-! ### Feature visibility (tool.js `hasSchema`, `hasData`,
`allowedForCategory`, render's feature loop) -/

/-- `item.schema_keys` coerced as in tool.js:
`Array.isArray(item.schema_keys) ? item.schema_keys : []`. -/
def schemaKeys (item : Item) : ValList :=
  match getField item "schema_keys" with
  | some (.varr xs) => xs
  | _ => ValList.nil

/-- `keys.includes(c)` for a string `c` (strict equality: only string
elements can match). -/
def includesStr : ValList → String → Bool
  | .nil, _ => false
  | .cons (.vstr s) tl, c => s == c || includesStr tl c
  | .cons _ tl, c => includesStr tl c

/-- tool.js `hasSchema(item, cols)`: the schema-keys array contains at least
one of the candidate column names. -/
def hasSchema (item : Item) (cols : List String) : Bool :=
  cols.any (fun c => includesStr (schemaKeys item) c)

/-- One step of `Object.values(v).some(x => x !== undefined && x !== null &&
String(x).trim() !== "")`. -/
def leafHit (x : Val) : Bool :=
  match x with
  | .vnull => false
  | x' => jsTrim (jsToString x') != ""

/-- `Object.values` scan over an array value. -/
def anyLeafList : ValList → Bool
  | .nil => false
  | .cons x tl => leafHit x || anyLeafList tl

/-- `Object.values` scan over an object value. -/
def anyLeafObj : ValObj → Bool
  | .nil => false
  | .cons _ x tl => leafHit x || anyLeafObj tl

/-- The special case for the `about` column in tool.js `hasData`:
`item.about && (item.about.short || item.about.long)` must be truthy and
have non-blank string form. -/
def aboutNestedHit (item : Item) : Bool :=
  match getField item "about" with
  | none => false
  | some a =>
    if truthy a then
      match jsOrOpt (propOf a "short") (propOf a "long") with
      | some nv => truthy nv && jsTrim (jsToString nv) != ""
      | none => false
    else false

/-- The per-column value test of tool.js `hasData`: the `about` special case,
then the object branch (which also captures arrays, since JS arrays are
objects), then the scalar branch. -/
def valHitCol (item : Item) (c : String) : Bool :=
  if c == "about" then aboutNestedHit item
  else
    match getField item c with
    | none => false
    | some Val.vnull => false
    | some (.vobj fs) => anyLeafObj fs
    | some (.varr xs) => anyLeafList xs
    | some v => jsTrim (jsToString v) != ""

/-- `cols.some(...)` part of tool.js `hasData`. -/
def valHit (item : Item) (cols : List String) : Bool :=
  cols.any (valHitCol item)

/-- An extra visibility predicate. `some b` models a normal return whose
truthiness is `b`; `none` models a thrown error. -/
abbrev Pred := Item → Option Bool

/-- `extraChecks.some(fn => { try { return !!fn(item); } catch(e){ return
false; }})`: a thrown error contributes `false`. -/
def extraHit (item : Item) (checks : List Pred) : Bool :=
  checks.any (fun fn => (fn item).getD false)

/-- tool.js `hasData(item, cols, extraChecks)`. -/
def hasData (item : Item) (cols : List String) (checks : List Pred) : Bool :=
  valHit item cols || extraHit item checks

/-- The UI sections of `FEATURE_REQUIREMENTS`. -/
inductive FeatureKey : Type where
  | about | amenities | cuisines | meals | rating | hours | map | details
  | headerRatingPill | eventFacts
deriving DecidableEq, Repr

/-- The string name under which a feature appears in the tables. -/
def featureName : FeatureKey → String
  | .about => "about"
  | .amenities => "amenities"
  | .cuisines => "cuisines"
  | .meals => "meals"
  | .rating => "rating"
  | .hours => "hours"
  | .map => "map"
  | .details => "details"
  | .headerRatingPill => "headerRatingPill"
  | .eventFacts => "eventFacts"

/-- `FEATURE_REQUIREMENTS[key].cols`. -/
def featureCols : FeatureKey → List String
  | .about => ["about", "about_short", "about_long", "description", "tagline"]
  | .amenities => ["amenities"]
  | .cuisines => ["cuisines"]
  | .meals => ["meals"]
  | .rating => ["rating_overall", "sub_food_quality", "sub_service", "sub_ambience",
      "sub_value", "sub_accessibility", "subscores", "scores", "public_sentiment"]
  | .hours => ["hours_raw"]
  | .map => ["address", "lat", "lng", "maps_url"]
  | .details => ["categories", "tags", "pricing", "price_range", "neighborhood",
      "city", "country", "lat", "lng"]
  | .headerRatingPill => ["rating_overall", "rating"]
  | .eventFacts => ["fact_venue", "fact_date", "fact_time", "fact_ticket_price"]

/-- `CATEGORY_ALLOW`: per-category gating maps. -/
def CATEGORY_ALLOW : List (String × List (String × Bool)) :=
  [ ("restaurants", [("cuisines", true), ("meals", true), ("eventFacts", false)]),
    ("cafes", [("cuisines", true), ("meals", true), ("eventFacts", false)]),
    ("catering-services", [("cuisines", true), ("meals", false), ("eventFacts", false)]),
    ("events", [("cuisines", false), ("meals", false), ("eventFacts", true)]),
    ("hotels", []), ("spas", []), ("clinics", []), ("schools", []), ("malls", []),
    ("car-repair-garages", []), ("home-maintenance-and-repair", []),
    ("moving-and-storage", []) ]

/-- First-match association lookup (JS own-property access on the literal
tables). -/
def lookupAssoc {α : Type} : List (String × α) → String → Option α
  | [], _ => none
  | (k, v) :: rest, key => if k == key then some v else lookupAssoc rest key

/-- tool.js `allowedForCategory(sectionKey, catSlug)`: look the category up
directly, then under its slugified form; a section not listed defaults to
allowed. -/
def allowedForCategory (sectionKey catSlug : String) : Bool :=
  let cfg := ((lookupAssoc CATEGORY_ALLOW catSlug).orElse
      (fun _ => lookupAssoc CATEGORY_ALLOW (slugify catSlug))).getD []
  match lookupAssoc cfg sectionKey with
  | some b => b
  | none => true

/-- `Object.keys(v).length` for JSON values (strings enumerate their
indices, arrays their elements, objects their own keys). -/
def jsKeysLength : Val → Nat
  | .vobj fs => sizeKeys fs
  | .varr xs => sizeList xs
  | .vstr s => s.length
  | _ => 0
where
  sizeKeys : ValObj → Nat
    | .nil => 0
    | .cons _ _ tl => sizeKeys tl + 1
  sizeList : ValList → Nat
    | .nil => 0
    | .cons _ tl => sizeList tl + 1

/-- Extra predicate for `rating`: `typeof it.rating_overall === 'number' ||
typeof it.rating === 'number' || (it.subscores &&
Object.keys(it.subscores).length)`. -/
def ratingExtra : Pred := fun it =>
  some (
    (match getField it "rating_overall" with | some (.vnum _) => true | _ => false)
    || (match getField it "rating" with | some (.vnum _) => true | _ => false)
    || (match getField it "subscores" with
        | some v => truthy v && jsKeysLength v != 0
        | none => false))

/-- Extra predicate for `hours`: `!!(it.hours && it.hours.weekly)`. -/
def hoursExtra : Pred := fun it =>
  some (
    match getField it "hours" with
    | some v => truthy v && truthyOpt (propOf v "weekly")
    | none => false)

/-- Extra predicate for `map`:
`!!(it.location && (it.location.lat || it.location.lng || it.address))`. -/
def mapExtra : Pred := fun it =>
  some (
    match getField it "location" with
    | some l => truthy l &&
        (truthyOpt (propOf l "lat") || truthyOpt (propOf l "lng")
          || truthyOpt (getField it "address"))
    | none => false)

/-- Extra predicate for `details`: `(it) => true`. -/
def detailsExtra : Pred := fun _ => some true

/-- The `extra` table of render(): `extra[key] || []`. -/
def extraFor : FeatureKey → List Pred
  | .rating => [ratingExtra]
  | .hours => [hoursExtra]
  | .map => [mapExtra]
  | .details => [detailsExtra]
  | _ => []

/-- The per-feature visibility combination of render()'s loop, with the
column list, extra checks and section name passed explicitly:
`schemaOK && dataOK && catOK`. -/
def resolveWith (item : Item) (cols : List String) (checks : List Pred)
    (sectionKey catSlug : String) : Bool :=
  hasSchema item cols && hasData item cols checks
    && allowedForCategory sectionKey catSlug

/-- The Feature-Visibility Resolver: `features[key]` as computed by
render()'s loop for a record and a category slug. -/
def resolveFeature (item : Item) (key : FeatureKey) (catSlug : String) : Bool :=
  resolveWith item (featureCols key) (extraFor key) (featureName key) catSlug

/-! ### Category fact configuration (tool.js `CATEGORY_FACTS`) -/

/-- One category's details-panel policy: ordered (label, source key) pairs
(`none` marks a computed composite) and the sections to force-hide. -/
structure CatCfg : Type where
  fields : List (String × Option String)
  hideSections : List String
deriving DecidableEq, Repr

/-- The common tail of most configs. -/
def commonTailFields : List (String × Option String) :=
  [ ("Neighbourhood", some "neighborhood"), ("City / Country", none),
    ("Tags", some "tags"), ("Website", none), ("Phone", none) ]

/-- tool.js `CATEGORY_FACTS`. -/
def CATEGORY_FACTS : List (String × CatCfg) :=
  [ ("hotels",
      { fields := [ ("Neighbourhood", some "neighborhood"), ("City / Country", none),
          ("Price Range", some "price_range"), ("Tags", some "tags"),
          ("Website", none), ("Phone", none) ],
        hideSections := [] }),
    ("restaurants",
      { fields := [ ("Neighbourhood", some "neighborhood"), ("City / Country", none),
          ("Price Range", some "price_range"), ("Tags", some "tags"),
          ("Website", none), ("Phone", none) ],
        hideSections := [] }),
    ("spas",
      { fields := [ ("Neighbourhood", some "neighborhood"), ("City / Country", none),
          ("Price Range", some "price_range"), ("Tags", some "tags"),
          ("Website", none), ("Phone", none) ],
        hideSections := ["cuisines", "meals"] }),
    ("clinics", { fields := commonTailFields, hideSections := ["cuisines", "meals"] }),
    ("malls", { fields := commonTailFields, hideSections := ["cuisines", "meals"] }),
    ("car-repair-garages",
      { fields := commonTailFields, hideSections := ["cuisines", "meals"] }),
    ("home-maintenance-and-repair",
      { fields := commonTailFields, hideSections := ["cuisines", "meals"] }),
    ("catering-services",
      { fields := [ ("Neighbourhood", some "neighborhood"), ("City / Country", none),
          ("Price Range", some "price_range"), ("Tags", some "tags"),
          ("Website", none), ("Phone", none) ],
        hideSections := ["cuisines", "meals"] }),
    ("events",
      { fields := [ ("Venue", some "fact_venue"), ("Date", some "fact_date"),
          ("Time", some "fact_time"), ("Ticket Price", some "fact_ticket_price"),
          ("Neighbourhood", some "neighborhood"), ("City / Country", none),
          ("Tags", some "tags"), ("Website", none), ("Phone", none) ],
        hideSections := ["cuisines", "meals"] }),
    ("events-planning",
      { fields := [ ("Venue", some "fact_venue"), ("Date", some "fact_date"),
          ("Time", some "fact_time"), ("Ticket Price", some "fact_ticket_price"),
          ("Neighbourhood", some "neighborhood"), ("City / Country", none),
          ("Tags", some "tags"), ("Website", none), ("Phone", none) ],
        hideSections := ["cuisines", "meals"] }) ]

/-- `EXCLUDE_DETAIL_KEYS`. -/
def EXCLUDE_DETAIL_KEYS : List String :=
  [ "id", "slug", "name", "category", "categories", "tagline",
    "description", "about", "about_short", "about_long",
    "logo_url", "hero_url", "image_credit", "image_source_url",
    "place_id", "osm_type", "osm_id", "wikidata_id",
    "pricing", "price", "price_range",
    "rating", "rating_overall", "subscores", "scores",
    "public_sentiment", "public_reviews",
    "review_count", "review_source", "review_insight", "last_updated",
    "hours_raw", "hours",
    "neighborhood", "address", "city", "country", "lat", "lng",
    "website", "phone", "maps_url", "url",
    "actions", "images", "image", "hero", "gallery",
    "schema_keys", "present_keys", "location", "created_at",
    "amenities", "cuisines", "meals" ]

/-- `EXCLUDE_PREFIXES`. -/
def EXCLUDE_PREFIXES : List String :=
  ["sub_", "review_", "image_", "actions.", "location.", "images."]

/-- `String.prototype.startsWith("fact_")` strip in `labelFromKey`. -/
def stripFact (s : String) : String :=
  if beginsWith "fact_" s then String.mk (s.data.drop 5) else s

/-- Is the character an underscore or hyphen (the `/[_\-]+/` class)? -/
def isUndDash (c : Char) : Bool := c == '_' || c == '-'

/-- `replace(/[_\-]+/g, " ")`: each run of underscores/hyphens becomes a
single space. The flag records being inside such a run. -/
def collapseUndDash : List Char → Bool → List Char
  | [], _ => []
  | c :: rest, inRun =>
    if isUndDash c then
      if inRun then collapseUndDash rest true else ' ' :: collapseUndDash rest true
    else c :: collapseUndDash rest false

/-- JS `\w`: ASCII letters, digits, underscore. -/
def isWordChar (c : Char) : Bool :=
  ('a' ≤ c && c ≤ 'z') || ('A' ≤ c && c ≤ 'Z') || ('0' ≤ c && c ≤ '9') || c == '_'

/-- `replace(/\b\w/g, c => c.toUpperCase())`: uppercase each word character
not preceded by a word character. The flag records whether the previous
character was a word character. -/
def capWords : List Char → Bool → List Char
  | [], _ => []
  | c :: rest, prevWord =>
    (if isWordChar c && !prevWord then jsUpperChar c else c)
      :: capWords rest (isWordChar c)

/-- tool.js `labelFromKey`. -/
def labelFromKey (k : String) : String :=
  if k == "" then ""
  else
    let name := stripFact k
    let spaced := jsTrim (String.mk (collapseUndDash name.data false))
    String.mk (capWords spaced.data false)

/-- tool.js `shouldAutoShowKey` for a string key. -/
def shouldAutoShowKey (k : String) : Bool :=
  if k == "" then false
  else if EXCLUDE_DETAIL_KEYS.contains k then false
  else if EXCLUDE_PREFIXES.any (fun p => beginsWith p k) then false
  else true

/-! ### fillDetails (the Category Fact Selector and Auto-Extra Discoverer) -/

/-- `(Array.isArray(item.categories) && item.categories[0]) || ""`:
the primary-category value of a record. -/
def primaryCatV (item : Item) : Val :=
  match getField item "categories" with
  | some (.varr (.cons v _)) => if truthy v then v else Val.vstr ""
  | _ => Val.vstr ""

/-- tool.js `getCategoryConfig(primaryCatLabel)`. The outer `none` models
the TypeError thrown by `.toLowerCase()` when the primary category is a
truthy non-string. -/
def getCategoryConfigV (primaryCat : Val) : Option (Option CatCfg) :=
  if truthy primaryCat then
    match primaryCat with
    | .vstr s => some (lookupAssoc CATEGORY_FACTS (slugify s))
    | _ => none
  else some (lookupAssoc CATEGORY_FACTS (slugify ""))

/-- The row-builder `push(label, value)` of fillDetails: skip null, join
arrays with ", ", otherwise coerce to string and trim; skip blank results. -/
def pushRow (label : String) (v : Val) : Option (String × String) :=
  match v with
  | .vnull => none
  | .varr xs =>
    let s := jsArrJoin ", " xs
    if s == "" then none else some (label, s)
  | v' =>
    let s := jsTrim (jsToString v')
    if s == "" then none else some (label, s)

/-- `[item.city, item.country].filter(Boolean).join(", ")`. -/
def cityCountry (item : Item) : String :=
  joinCC (([getField item "city", getField item "country"].filterMap id).filter truthy)
where
  joinCC : List Val → String
    | [] => ""
    | [v] => jsToString v
    | v :: rest => jsToString v ++ ", " ++ joinCC rest

/-- `item.actions?.k`. -/
def actionsProp (item : Item) (k : String) : Option Val :=
  match getField item "actions" with
  | some v => propOf v k
  | none => none

/-- `item.location?.k`. -/
def locProp (item : Item) (k : String) : Option Val :=
  match getField item "location" with
  | some v => propOf v k
  | none => none

/-- One entry of `cfg.fields.forEach` in fillDetails: a possible row. -/
def cfgFieldRow (item : Item) : String × Option String → Option (String × String)
  | (label, none) =>
    if label == "City / Country" then
      let cc := cityCountry item
      if cc != "" then pushRow label (.vstr cc) else none
    else if label == "Website" then
      match jsOrOpt (actionsProp item "website") (getField item "url") with
      | some v => if truthy v then pushRow label v else none
      | none => none
    else if label == "Phone" then
      match actionsProp item "phone" with
      | some v => if truthy v then pushRow label v else none
      | none => none
    else none
  | (label, some key) =>
    match getField item key with
    | none => none
    | some Val.vnull => none
    | some v => if jsTrim (jsToString v) != "" then pushRow label v else none

/-- The generic fallback rows of fillDetails (no per-category config). -/
def fallbackRows (item : Item) : List (String × String) :=
  (match getField item "neighborhood" with
   | some v => if truthy v then (pushRow "Neighbourhood" v).toList else []
   | none => []) ++
  (let cc := cityCountry item
   if cc != "" then (pushRow "City / Country" (.vstr cc)).toList else []) ++
  (match jsOrOpt (getField item "price_range") (getField item "pricing") with
   | some v => if truthy v then (pushRow "Price Range" v).toList else []
   | none => []) ++
  (match getField item "tags" with
   | some (.varr (.cons x tl)) =>
       (pushRow "Tags" (.vstr (jsArrJoin ", " (.cons x tl)))).toList
   | _ => []) ++
  (match jsOrOpt (actionsProp item "website") (getField item "url") with
   | some v => if truthy v then (pushRow "Website" v).toList else []
   | none => []) ++
  (match actionsProp item "phone" with
   | some v => if truthy v then (pushRow "Phone" v).toList else []
   | none => [])

/-- The rows emitted before the auto-extra scan: the Category row, then the
per-category (or fallback) rows, then the Coordinates row. -/
def baseRows (item : Item) (cfg : Option CatCfg) : List (String × String) :=
  (if truthy (primaryCatV item)
   then (pushRow "Category" (primaryCatV item)).toList else []) ++
  (match cfg with
   | some c => c.fields.filterMap (cfgFieldRow item)
   | none => fallbackRows item) ++
  (match locProp item "lat", locProp item "lng" with
   | some la, some ln =>
     if truthy la && truthy ln then
       (pushRow "Coordinates" (.vstr (jsToString la ++ ", " ++ jsToString ln))).toList
     else []
   | _, _ => [])

/-- The `shownLabels` snapshot: each already-rendered label, trimmed and
lowercased. -/
def shownLabels (rows : List (String × String)) : List String :=
  rows.map (fun r => jsLower (jsTrim r.1))

/-- The body of one iteration of the auto-extra scan for a string schema
key: the row it emits, if any. -/
def scanRow (item : Item) (shown : List String) (s : String) :
    Option (String × String) :=
  if !shouldAutoShowKey s then none
  else
    match getField item s with
    | none => none
    | some Val.vnull => none
    | some v =>
      let str := match v with
        | .varr xs => jsArrJoin ", " xs
        | v' => jsTrim (jsToString v')
      if str == "" then none
      else
        let label := labelFromKey s
        if shown.contains (jsLower label) then none
        else pushRow label (.vstr str)

/-- The auto-extra scan over `schema_keys`. The snapshot `shown` is fixed
for the whole scan. The outer `none` models the TypeError thrown by
`k.startsWith(...)` on a truthy non-string key. -/
def scanExtras (item : Item) (shown : List String) :
    ValList → Option (List (String × String))
  | .nil => some []
  | .cons (.vstr s) tl =>
    match scanExtras item shown tl with
    | some rest => some ((scanRow item shown s).toList ++ rest)
    | none => none
  | .cons k tl =>
    if truthy k then none else scanExtras item shown tl

/-- tool.js `fillDetails`: the ordered (label, value) rows of the details
panel; `none` models a thrown TypeError. -/
def fillDetails (item : Item) : Option (List (String × String)) :=
  match getCategoryConfigV (primaryCatV item) with
  | none => none
  | some cfg =>
    let base := baseRows item cfg
    match scanExtras item (shownLabels base) (schemaKeys item) with
    | some extras => some (base ++ extras)
    | none => none

/-! ### The render-time category slug and the category-hide override -/

/-- `slugify(primaryCat)` as computed at the top of render(); `none` models
the TypeError on a truthy non-string primary category. -/
def renderCatSlug (item : Item) : Option String :=
  match primaryCatV item with
  | .vstr s => some (slugify s)
  | v => if truthy v then none else some (slugify "")

/-- The hidden state of a section's card after render() applies the
per-feature visibility and then `enforceCategoryHides` (lines 336-364 of
tool.js): hidden when the resolved feature is false, or when the category
config force-hides the section id. -/
def cardHiddenAfterOverride (item : Item) (sectionId : String)
    (key : FeatureKey) : Option Bool :=
  match renderCatSlug item with
  | none => none
  | some cslug =>
    match getCategoryConfigV (primaryCatV item) with
    | none => none
    | some cfgOpt =>
      let hidden1 := !(resolveFeature item key cslug)
      some (match cfgOpt with
        | some cfg => hidden1 || cfg.hideSections.contains sectionId
        | none => hidden1)

/-! ### The description-text fallback chains (render lines 306-316, 483-489) -/

/-- `item.about && (item.about.k1 || item.about.k2)`. -/
def aboutFirstSecond (item : Item) (k1 k2 : String) : Option Val :=
  match getField item "about" with
  | none => none
  | some a => if truthy a then jsOrOpt (propOf a k1) (propOf a k2) else some a

/-- A chain `e1 || e2 || ... || lit` of possibly-undefined operands ending
in a literal: the first truthy operand, else the literal. -/
def jsOrChain : List (Option Val) → Val → Val
  | [], dflt => dflt
  | x :: rest, dflt =>
    match x with
    | some v => if truthy v then v else jsOrChain rest dflt
    | none => jsOrChain rest dflt

/-- The short blurb under the title (render lines 307-310):
`(about && (about.short || about.long)) || about_short || about_long ||
description || tagline || ""`. -/
def excerptChosen (item : Item) : Val :=
  jsOrChain
    [ aboutFirstSecond item "short" "long", getField item "about_short",
      getField item "about_long", getField item "description",
      getField item "tagline" ] (.vstr "")

/-- The About-section body text (render lines 484-487):
`(about && (about.long || about.short)) || about_long || about_short ||
description || tagline || "—"`. -/
def aboutChosen (item : Item) : Val :=
  jsOrChain
    [ aboutFirstSecond item "long" "short", getField item "about_long",
      getField item "about_short", getField item "description",
      getField item "tagline" ] (.vstr "—")

/-- `item.about?.k` as a plain source (for stating precedence orders). -/
def aboutProp (item : Item) (k : String) : Option Val :=
  (getField item "about").bind (fun a => propOf a k)

/-- The source order claimed by the specification for description text:
about.short, about.long, about_short, about_long, description, tagline. -/
def specOrderSources (item : Item) : List (Option Val) :=
  [ aboutProp item "short", aboutProp item "long", getField item "about_short",
    getField item "about_long", getField item "description",
    getField item "tagline" ]

/-- The long-form-first source order actually used by the About body. -/
def longFirstSources (item : Item) : List (Option Val) :=
  [ aboutProp item "long", aboutProp item "short", getField item "about_long",
    getField item "about_short", getField item "description",
    getField item "tagline" ]

/-- First source (in order) whose string form is non-empty, else the
default. This is the "first non-empty source" selector in the words of the
specification. -/
def firstNonEmptyJS : List (Option Val) → String → String
  | [], d => d
  | none :: rest, d => firstNonEmptyJS rest d
  | some v :: rest, d =>
    if jsToString v != "" then jsToString v else firstNonEmptyJS rest d

/-- The description text predicted by the claim's precedence order. -/
def claimChosenText (item : Item) : String :=
  firstNonEmptyJS (specOrderSources item) ""

/-- A source that is absent or a plain string (the shapes the spec's
fallback chains are about). -/
def strOrAbsentB : Option Val → Bool
  | none => true
  | some (.vstr _) => true
  | some _ => false

/-- All six description sources are absent or strings (`about` itself may
be absent, null, a string, or an object with string-or-absent
`short`/`long`). -/
def descWellTyped (item : Item) : Bool :=
  (match getField item "about" with
   | none => true
   | some Val.vnull => true
   | some (.vstr _) => true
   | some (.vobj fs) =>
     strOrAbsentB (lookupObj fs "short") && strOrAbsentB (lookupObj fs "long")
   | some _ => false)
  && strOrAbsentB (getField item "about_short")
  && strOrAbsentB (getField item "about_long")
  && strOrAbsentB (getField item "description")
  && strOrAbsentB (getField item "tagline")

/-! ### Field emptiness in the vocabulary of the specification -/

/-- An immediate member of an object/array that contributes no data: null,
or blank string form. -/
def emptyLeaf (x : Val) : Bool :=
  match x with
  | .vnull => true
  | x' => jsTrim (jsToString x') == ""

/-- Every immediate value of the object is an empty leaf. -/
def allLeavesEmpty : ValObj → Bool
  | .nil => true
  | .cons _ x tl => emptyLeaf x && allLeavesEmpty tl

/-- A candidate field that is absent or empty: missing, null, blank string,
empty array, or an object none of whose immediate values has a non-blank
string form. -/
def jsFieldEmpty : Option Val → Bool
  | none => true
  | some Val.vnull => true
  | some (.vstr s) => jsTrim s == ""
  | some (.varr .nil) => true
  | some (.varr (.cons _ _)) => false
  | some (.vobj fs) => allLeavesEmpty fs
  | some _ => false

/-! ### Concrete records used in the claim theorems -/

/-- A record with an explicitly empty schema-keys list but non-empty about
text. -/
def c1item : Item :=
  [ ("schema_keys", .varr .nil), ("about_short", .vstr "Hello") ]

/-- A record whose only hours-related data is the parsed `hours.weekly`
object; the sole candidate column `hours_raw` is absent. -/
def c2item : Item :=
  [ ("schema_keys", .varr (.cons (.vstr "hours_raw") .nil)),
    ("hours", .vobj (.cons "weekly" (.vobj .nil) .nil)) ]

/-- An Events record with stray cuisines data. -/
def c3item : Item :=
  [ ("categories", .varr (.cons (.vstr "Events") .nil)),
    ("cuisines", .varr (.cons (.vstr "Omani") .nil)) ]

/-- The Hotels record of the specification's fact-selector test. -/
def c4item : Item :=
  [ ("categories", .varr (.cons (.vstr "Hotels") .nil)),
    ("neighborhood", .vstr "Qurum"),
    ("city", .vstr "Muscat"),
    ("country", .vstr "Oman"),
    ("price_range", .vstr "$$") ]

/-- A record whose nested about has a whitespace-only short text and a
non-empty long text. -/
def c6item : Item :=
  [ ("about", .vobj (.cons "short" (.vstr "S") (.cons "long" (.vstr "L") .nil))) ]

/-- A record whose nested about has a whitespace-only short text and a
non-empty long text. -/
def c7item : Item :=
  [ ("about", .vobj (.cons "short" (.vstr " ") (.cons "long" (.vstr "Hello") .nil))) ]

/-- A record with an object-valued amenities field holding one blank leaf. -/
def c7aItem : Item :=
  [ ("amenities", .vobj (.cons "x" (.vstr "") .nil)) ]

/-- A Hotels record declaring one extra schema key with data. -/
def c8item : Item :=
  [ ("categories", .varr (.cons (.vstr "Hotels") .nil)),
    ("fact_venue", .vstr "X"),
    ("schema_keys", .varr (.cons (.vstr "fact_venue") .nil)) ]

/-- A Hotels record with two schema keys that derive the same label. -/
def c10item : Item :=
  [ ("categories", .varr (.cons (.vstr "Hotels") .nil)),
    ("fact_venue", .vstr "X"),
    ("venue", .vstr "Y"),
    ("schema_keys", .varr (.cons (.vstr "fact_venue") (.cons (.vstr "venue") .nil))) ]

end BestMuscat

namespace BestMuscat

/-! ## Supporting lemmas -/

theorem includesStr_nil (c : String) : includesStr ValList.nil c = false := rfl

theorem hasSchema_of_nil_keys (item : Item) (cols : List String)
    (h : schemaKeys item = ValList.nil) : hasSchema item cols = false := by
  simp [hasSchema, h, includesStr]

theorem leafHit_not_emptyLeaf (x : Val) : leafHit x = !emptyLeaf x := by
  cases x <;> simp [leafHit, emptyLeaf, bne]

theorem anyLeafObj_not_allLeavesEmpty : (fs : ValObj) →
    anyLeafObj fs = !allLeavesEmpty fs
  | .nil => rfl
  | .cons k x tl => by
    simp [anyLeafObj, allLeavesEmpty, leafHit_not_emptyLeaf,
      anyLeafObj_not_allLeavesEmpty tl]

theorem allLeavesEmpty_lookup : (fs : ValObj) → (k : String) → (v : Val) →
    allLeavesEmpty fs = true → lookupObj fs k = some v → emptyLeaf v = true
  | .nil, k, v, _, hlk => by simp [lookupObj] at hlk
  | .cons k0 x tl, k, v, hall, hlk => by
    simp only [allLeavesEmpty, Bool.and_eq_true] at hall
    by_cases hk : (k0 == k) = true
    · simp only [lookupObj, hk, if_true, Option.some.injEq] at hlk
      exact hlk ▸ hall.1
    · simp only [lookupObj, hk, if_false] at hlk
      exact allLeavesEmpty_lookup tl k v hall.2 hlk

theorem valHitCol_of_empty (item : Item) (c : String)
    (h : jsFieldEmpty (getField item c) = true) : valHitCol item c = false := by
  by_cases hc : (c == "about") = true
  · have hc' : c = "about" := by simpa using hc
    subst hc'
    rw [valHitCol]
    simp only [beq_self_eq_true, if_true]
    rw [aboutNestedHit]
    cases hab : getField item "about" with
    | none => rfl
    | some a =>
      rw [hab] at h
      cases a with
      | vnull => simp [truthy]
      | vbool b =>
        simp [jsFieldEmpty] at h
      | vnum n =>
        simp [jsFieldEmpty] at h
      | vstr s =>
        simp [truthy, propOf, jsOrOpt]
      | varr xs =>
        cases xs with
        | nil => simp [truthy, jsOrOpt, propOf]
        | cons hd tl => simp [jsFieldEmpty] at h
      | vobj fs =>
        simp only [truthy, if_true]
        simp only [jsFieldEmpty] at h
        simp only [propOf]
        cases hsh : lookupObj fs "short" with
        | none =>
          cases hlg : lookupObj fs "long" with
          | none => simp [jsOrOpt]
          | some lv =>
            have he := allLeavesEmpty_lookup fs "long" lv h hlg
            simp only [jsOrOpt]
            cases lv with
            | vnull => simp [truthy]
            | _ =>
              simp only [emptyLeaf] at he
              simp [truthy, bne, he]
        | some sv =>
          have he := allLeavesEmpty_lookup fs "short" sv h hsh
          simp only [jsOrOpt]
          by_cases ht : truthy sv = true
          · rw [ht]
            simp only [if_true]
            cases sv with
            | vnull => simp [truthy] at ht
            | _ =>
              simp only [emptyLeaf] at he
              simp [bne, he]
          · rw [Bool.not_eq_true] at ht
            rw [ht]
            simp only [Bool.false_eq_true, if_false]
            cases hlg : lookupObj fs "long" with
            | none => rfl
            | some lv =>
              have he2 := allLeavesEmpty_lookup fs "long" lv h hlg
              cases lv with
              | vnull => simp [truthy]
              | _ =>
                simp only [emptyLeaf] at he2
                simp [truthy, bne, he2]
  · rw [valHitCol]
    simp only [hc, if_false]
    cases hf : getField item c with
    | none => rfl
    | some v =>
      rw [hf] at h
      cases v with
      | vnull => rfl
      | vbool b => simp [jsFieldEmpty] at h
      | vnum n => simp [jsFieldEmpty] at h
      | vstr s =>
        simp only [jsFieldEmpty] at h
        simp [jsToString, bne, h]
      | varr xs =>
        cases xs with
        | nil => rfl
        | cons hd tl => simp [jsFieldEmpty] at h
      | vobj fs =>
        simp only [jsFieldEmpty] at h
        simp [anyLeafObj_not_allLeavesEmpty, h]

theorem valHit_of_empty (item : Item) (cols : List String)
    (h : ∀ c ∈ cols, jsFieldEmpty (getField item c) = true) :
    valHit item cols = false := by
  simp only [valHit, List.any_eq_false]
  intro c hcm
  simp [valHitCol_of_empty item c (h c hcm)]

theorem extraHit_of_false (item : Item) (checks : List Pred)
    (h : ∀ fn ∈ checks, (fn item).getD false = false) :
    extraHit item checks = false := by
  simp only [extraHit, List.any_eq_false]
  intro fn hfm
  simp [h fn hfm]

theorem extraHit_filter (item : Item) : (checks : List Pred) →
    extraHit item checks
      = (checks.filter (fun fn => (fn item).isSome)).any
          (fun fn => (fn item).getD false)
  | [] => rfl
  | fn :: tl => by
    rw [extraHit, List.any_cons]
    cases hf : fn item with
    | none =>
      have : extraHit item tl = _ := extraHit_filter item tl
      simp [List.filter_cons, hf, ← this, extraHit]
    | some b =>
      have : extraHit item tl = _ := extraHit_filter item tl
      simp [List.filter_cons, hf, ← this, extraHit]

/-! ## Claim theorems -/

/-- Claim C1, counterexample: for a record whose `schema_keys` is the empty
list, the schema check for the `about` feature is false (not vacuously
true), and the resolved visibility of `about` is false even though the data
check passes and the category places no restriction — absence of schema
keys by itself forces visibility to false, contradicting the claim. -/
theorem c1_counterexample :
    getField c1item "schema_keys" = some (.varr .nil)
    ∧ hasSchema c1item (featureCols FeatureKey.about) = false
    ∧ hasData c1item (featureCols FeatureKey.about) (extraFor FeatureKey.about) = true
    ∧ allowedForCategory (featureName FeatureKey.about) "restaurants" = true
    ∧ resolveFeature c1item FeatureKey.about "restaurants" = false := by
  refine ⟨rfl, rfl, rfl, rfl, rfl⟩

/-- Claim C1, amended: whenever `schema_keys` is absent, not an array, or an
empty array, `hasSchema` is false for every feature, so every feature's
resolved visibility is false regardless of data and category. -/
theorem c1_schema_absent_hides_all (item : Item) (key : FeatureKey)
    (cat : String) (h : schemaKeys item = ValList.nil) :
    resolveFeature item key cat = false := by
  have hs : hasSchema item (featureCols key) = false :=
    hasSchema_of_nil_keys item (featureCols key) h
  simp [resolveFeature, resolveWith, hs]

/-- Witness for the amended C1 at a concrete record with no schema keys. -/
theorem c1_schema_absent_hides_all_witness :
    schemaKeys c1item = ValList.nil
    ∧ resolveFeature c1item FeatureKey.about "restaurants" = false :=
  ⟨rfl, c1_schema_absent_hides_all c1item FeatureKey.about "restaurants" rfl⟩

/-- Claim C2, counterexample: every candidate column of the `hours` feature
is absent from the record, yet the resolved visibility is true (the extra
predicate on the parsed `hours.weekly` satisfies the data check, and
`schema_keys` lists `hours_raw`), contradicting the claim. -/
theorem c2_counterexample :
    (featureCols FeatureKey.hours).all
      (fun c => (getField c2item c).isNone) = true
    ∧ resolveFeature c2item FeatureKey.hours "hotels" = true := by
  refine ⟨rfl, rfl⟩

/-- Claim C2, amended: the resolved visibility is false whenever every
candidate column of the feature is absent or empty and, in addition, every
extra predicate of that feature evaluates falsy on the record. (The extra
predicates of rating/hours/map/details can otherwise satisfy the data check
from non-candidate fields; the details predicate is constantly true.) -/
theorem c2_empty_and_no_extra_hides (item : Item) (key : FeatureKey)
    (cat : String)
    (hcols : ∀ c ∈ featureCols key, jsFieldEmpty (getField item c) = true)
    (hextras : ∀ fn ∈ extraFor key, (fn item).getD false = false) :
    resolveFeature item key cat = false := by
  have hv : valHit item (featureCols key) = false :=
    valHit_of_empty item (featureCols key) hcols
  have he : extraHit item (extraFor key) = false :=
    extraHit_of_false item (extraFor key) hextras
  simp [resolveFeature, resolveWith, hasData, hv, he]

/-- Witness for the amended C2: the empty record has every `about` candidate
column absent and no extra predicates, so `about` resolves to false. -/
theorem c2_empty_and_no_extra_hides_witness :
    resolveFeature ([] : Item) FeatureKey.about "restaurants" = false := by
  refine c2_empty_and_no_extra_hides [] FeatureKey.about "restaurants" ?_ ?_
  · intro c _
    rfl
  · intro fn hfm
    simp [extraFor] at hfm

/-- Claim C4: on the specification's Hotels record, fillDetails emits
exactly the Category, Neighbourhood, City / Country and Price Range rows,
in that order, with no Website or Phone row. -/
theorem c4_hotels_fact_rows :
    fillDetails c4item
      = some [("Category", "Hotels"), ("Neighbourhood", "Qurum"),
          ("City / Country", "Muscat, Oman"), ("Price Range", "$$")] := by
  rfl

/-- Claim C5: the resolved visibility is the conjunction of the schema
check, the data check and the category gate; a false data check forces the
result false for every category; and a category listed in neither form in
`CATEGORY_ALLOW` allows every section, so the gate only restricts. -/
theorem c5_gate_is_monotonic_restriction (item : Item) (key : FeatureKey)
    (cat : String) :
    (resolveFeature item key cat
      = (hasSchema item (featureCols key)
          && hasData item (featureCols key) (extraFor key)
          && allowedForCategory (featureName key) cat))
    ∧ (hasData item (featureCols key) (extraFor key) = false →
        resolveFeature item key cat = false)
    ∧ (lookupAssoc CATEGORY_ALLOW cat = none →
        lookupAssoc CATEGORY_ALLOW (slugify cat) = none →
        allowedForCategory (featureName key) cat = true) := by
  refine ⟨rfl, ?_, ?_⟩
  · intro h
    simp [resolveFeature, resolveWith, h]
  · intro h1 h2
    simp only [allowedForCategory, h1, h2]
    rfl

/-- Witness for C5 at a concrete record and an unknown category. -/
theorem c5_gate_is_monotonic_restriction_witness :
    resolveFeature c4item FeatureKey.cuisines "food-trucks" = false
    ∧ allowedForCategory (featureName FeatureKey.cuisines) "food-trucks" = true :=
  ⟨(c5_gate_is_monotonic_restriction c4item FeatureKey.cuisines "food-trucks").2.1 rfl,
   (c5_gate_is_monotonic_restriction c4item FeatureKey.cuisines "food-trucks").2.2 rfl rfl⟩

/-- Claim C9: a thrown extra predicate contributes false and is never
propagated: the resolver's value equals the schema check AND (the
column-based data check OR the disjunction of the non-throwing predicates)
AND the category gate, for any record and any predicate list. -/
theorem c9_thrown_predicates_are_false (item : Item) (cols : List String)
    (checks : List Pred) (sectionKey cat : String) :
    resolveWith item cols checks sectionKey cat
      = (hasSchema item cols
          && (valHit item cols
              || (checks.filter (fun fn => (fn item).isSome)).any
                  (fun fn => (fn item).getD false))
          && allowedForCategory sectionKey cat) := by
  rw [resolveWith, hasData, extraHit_filter]

/-- Claim C10: with two schema keys `fact_venue` and `venue` that derive the
same label "Venue", both rows are emitted (the shown-labels snapshot is not
updated during the scan), so the details list contains two rows with the
identical label. -/
theorem c10_duplicate_venue_rows :
    fillDetails c10item
      = some [("Category", "Hotels"), ("Venue", "X"), ("Venue", "Y")]
    ∧ ((fillDetails c10item).getD []).countP (fun r => r.1 == "Venue") = 2 := by
  refine ⟨rfl, rfl⟩

/-- Claim C3: for any record whose primary category is "Events" and whose
cuisines array is non-empty, the resolved visibility of the cuisines
feature is false (the events gate sets `cuisines: false`), and the card
remains hidden after the category-hide override, independent of the data
the record holds. -/
theorem c3_events_force_hides_cuisines (item : Item) (rest tl : ValList)
    (c : Val)
    (hcat : getField item "categories"
      = some (.varr (.cons (.vstr "Events") rest)))
    (_hcui : getField item "cuisines" = some (.varr (.cons c tl))) :
    resolveFeature item FeatureKey.cuisines (slugify "Events") = false
    ∧ cardHiddenAfterOverride item "cuisines" FeatureKey.cuisines = some true := by
  have hp : primaryCatV item = .vstr "Events" := by
    unfold primaryCatV
    rw [hcat]
    rfl
  have hres : resolveFeature item FeatureKey.cuisines (slugify "Events") = false := by
    have hA : allowedForCategory (featureName FeatureKey.cuisines)
        (slugify "Events") = false := rfl
    simp [resolveFeature, resolveWith, hA]
  refine ⟨hres, ?_⟩
  have hcfg : getCategoryConfigV (Val.vstr "Events")
      = some (lookupAssoc CATEGORY_FACTS "events") := rfl
  simp only [cardHiddenAfterOverride, renderCatSlug, hp, hcfg, hres]
  rfl

/-- Witness for C3 at the concrete Events record with cuisines data. -/
theorem c3_events_force_hides_cuisines_witness :
    getField c3item "categories"
      = some (.varr (.cons (.vstr "Events") .nil))
    ∧ getField c3item "cuisines"
      = some (.varr (.cons (.vstr "Omani") .nil))
    ∧ resolveFeature c3item FeatureKey.cuisines (slugify "Events") = false
    ∧ cardHiddenAfterOverride c3item "cuisines" FeatureKey.cuisines = some true :=
  ⟨rfl, rfl,
    (c3_events_force_hides_cuisines c3item .nil .nil (.vstr "Omani") rfl rfl).1,
    (c3_events_force_hides_cuisines c3item .nil .nil (.vstr "Omani") rfl rfl).2⟩

/-- Claim C6, counterexample: on a record with about.short = "S" and
about.long = "L", the claimed precedence (short first) selects "S", but the
About-section body displays "L": the two render sites do not share the
claimed order. -/
theorem c6_counterexample :
    claimChosenText c6item = "S"
    ∧ jsToString (aboutChosen c6item) = "L"
    ∧ ("L" : String) ≠ "S" := by
  refine ⟨rfl, rfl, by decide⟩

theorem flatten_aboutFirstSecond (item : Item) (k1 k2 : String)
    (rest : List (Option Val)) (d : Val) :
    jsOrChain (aboutFirstSecond item k1 k2 :: rest) d
      = jsOrChain (aboutProp item k1 :: aboutProp item k2 :: rest) d := by
  cases hab : getField item "about" with
  | none => simp [aboutFirstSecond, aboutProp, hab, jsOrChain]
  | some a =>
    cases a with
    | vobj fs =>
      simp only [aboutFirstSecond, aboutProp, hab, Option.bind, propOf, truthy,
        if_true]
      cases h1 : lookupObj fs k1 with
      | none => simp [jsOrChain, jsOrOpt]
      | some v1 =>
        by_cases ht : truthy v1 = true
        · simp [jsOrChain, jsOrOpt, ht]
        · rw [Bool.not_eq_true] at ht
          simp [jsOrChain, jsOrOpt, ht]
    | vnull => simp [aboutFirstSecond, aboutProp, hab, jsOrChain, propOf, truthy]
    | vbool b =>
      cases b <;>
        simp [aboutFirstSecond, aboutProp, hab, jsOrChain, propOf, truthy, jsOrOpt]
    | vnum n =>
      by_cases hn : (n == 0) = true
      · simp [aboutFirstSecond, aboutProp, hab, jsOrChain, propOf, truthy, bne,
          hn, jsOrOpt]
      · simp [aboutFirstSecond, aboutProp, hab, jsOrChain, propOf, truthy, bne,
          hn, jsOrOpt]
    | vstr s =>
      by_cases hs : (s == "") = true
      · simp [aboutFirstSecond, aboutProp, hab, jsOrChain, propOf, truthy, bne,
          hs, jsOrOpt]
      · simp [aboutFirstSecond, aboutProp, hab, jsOrChain, propOf, truthy, bne,
          hs, jsOrOpt]
    | varr xs =>
      simp [aboutFirstSecond, aboutProp, hab, jsOrChain, propOf, truthy, jsOrOpt]

theorem jsOrChain_eq_firstNonEmpty : (xs : List (Option Val)) → (d : String) →
    (∀ x ∈ xs, strOrAbsentB x = true) →
    jsToString (jsOrChain xs (.vstr d)) = firstNonEmptyJS xs d
  | [], d, _ => rfl
  | none :: tl, d, h => by
    rw [jsOrChain, firstNonEmptyJS]
    exact jsOrChain_eq_firstNonEmpty tl d (fun x hx => h x (List.mem_cons_of_mem _ hx))
  | some v :: tl, d, h => by
    have hv : strOrAbsentB (some v) = true := h (some v) (List.mem_cons_self _ _)
    cases v with
    | vstr s =>
      rw [jsOrChain, firstNonEmptyJS]
      by_cases hs : (s == "") = true
      · have hs' : s = "" := by simpa using hs
        subst hs'
        simp only [truthy, jsToString, bne, beq_self_eq_true, Bool.not_true,
          Bool.false_eq_true, if_false]
        exact jsOrChain_eq_firstNonEmpty tl d
          (fun x hx => h x (List.mem_cons_of_mem _ hx))
      · simp [truthy, jsToString, bne, hs]
    | vnull => simp [strOrAbsentB] at hv
    | vbool b => simp [strOrAbsentB] at hv
    | vnum n => simp [strOrAbsentB] at hv
    | varr xs2 => simp [strOrAbsentB] at hv
    | vobj fs => simp [strOrAbsentB] at hv

theorem descWellTyped_props (item : Item) (h : descWellTyped item = true) :
    strOrAbsentB (aboutProp item "short") = true
    ∧ strOrAbsentB (aboutProp item "long") = true := by
  simp only [descWellTyped, Bool.and_eq_true] at h
  obtain ⟨⟨⟨⟨hab, _⟩, _⟩, _⟩, _⟩ := h
  cases hf : getField item "about" with
  | none => simp [aboutProp, hf, strOrAbsentB]
  | some a =>
    rw [hf] at hab
    cases a with
    | vnull => simp [aboutProp, hf, propOf, strOrAbsentB]
    | vstr s => simp [aboutProp, hf, propOf, strOrAbsentB]
    | vbool b => exact absurd hab (by simp)
    | vnum n => exact absurd hab (by simp)
    | varr xs => exact absurd hab (by simp)
    | vobj fs =>
      simp only [Bool.and_eq_true] at hab
      exact ⟨by simpa [aboutProp, hf, propOf] using hab.1,
        by simpa [aboutProp, hf, propOf] using hab.2⟩

/-- Claim C6, amended: for records whose description sources are strings or
absent, the short blurb under the title is the first non-empty source in
the order about.short, about.long, about_short, about_long, description,
tagline, empty — while the About-section body instead prefers long-form
text first: about.long, about.short, about_long, about_short, description,
tagline, "—". -/
theorem c6_two_precedence_orders (item : Item) (h : descWellTyped item = true) :
    jsToString (excerptChosen item) = firstNonEmptyJS (specOrderSources item) ""
    ∧ jsToString (aboutChosen item)
        = firstNonEmptyJS (longFirstSources item) "—" := by
  have hps := descWellTyped_props item h
  simp only [descWellTyped, Bool.and_eq_true] at h
  obtain ⟨⟨⟨⟨_, h1⟩, h2⟩, h3⟩, h4⟩ := h
  constructor
  · rw [excerptChosen, flatten_aboutFirstSecond, specOrderSources]
    apply jsOrChain_eq_firstNonEmpty
    intro x hx
    simp only [List.mem_cons, List.mem_singleton, List.not_mem_nil, or_false] at hx
    rcases hx with hx | hx | hx | hx | hx | hx
    · exact hx ▸ hps.1
    · exact hx ▸ hps.2
    · exact hx ▸ h1
    · exact hx ▸ h2
    · exact hx ▸ h3
    · exact hx ▸ h4
  · rw [aboutChosen, flatten_aboutFirstSecond, longFirstSources]
    apply jsOrChain_eq_firstNonEmpty
    intro x hx
    simp only [List.mem_cons, List.mem_singleton, List.not_mem_nil, or_false] at hx
    rcases hx with hx | hx | hx | hx | hx | hx
    · exact hx ▸ hps.2
    · exact hx ▸ hps.1
    · exact hx ▸ h2
    · exact hx ▸ h1
    · exact hx ▸ h3
    · exact hx ▸ h4

/-- Witness for the amended C6 at the concrete short/long record. -/
theorem c6_two_precedence_orders_witness :
    descWellTyped c6item = true
    ∧ jsToString (excerptChosen c6item)
        = firstNonEmptyJS (specOrderSources c6item) ""
    ∧ jsToString (aboutChosen c6item)
        = firstNonEmptyJS (longFirstSources c6item) "—" :=
  ⟨rfl, (c6_two_precedence_orders c6item rfl).1,
    (c6_two_precedence_orders c6item rfl).2⟩

/-- Claim C7, counterexample: for about = \x7bshort: " ", long: "Hello"\x7d
the claim predicts a satisfied data check (a non-blank leaf exists), but
the code's special case selects the truthy whitespace short text, trims it
to empty, and reports no data for the about feature. -/
theorem c7_counterexample :
    getField c7item "about"
      = some (.vobj (.cons "short" (.vstr " ")
          (.cons "long" (.vstr "Hello") .nil)))
    ∧ jsTrim " " = ""
    ∧ jsTrim "Hello" ≠ ""
    ∧ hasData c7item (featureCols FeatureKey.about) (extraFor FeatureKey.about)
        = false := by
  refine ⟨rfl, rfl, by decide, rfl⟩

/-- Claim C7, amended: a candidate column other than `about` holding an
object counts as non-empty iff some immediate value is a non-blank leaf;
the `about` column is special-cased to `about.short || about.long` and a
truthy whitespace-only short text makes the check false even when the long
text is non-empty. -/
theorem c7_object_data_check :
    (∀ (item : Item) (c : String) (fs : ValObj),
      (c == "about") = false →
      getField item c = some (.vobj fs) →
      (valHitCol item c = false ↔ allLeavesEmpty fs = true))
    ∧ (∀ (item : Item) (fs : ValObj) (s : String),
      getField item "about" = some (.vobj fs) →
      lookupObj fs "short" = some (.vstr s) →
      (s == "") = false → jsTrim s = "" →
      valHitCol item "about" = false) := by
  constructor
  · intro item c fs hc hf
    rw [valHitCol]
    simp only [hc, Bool.false_eq_true, if_false]
    rw [hf]
    simp [anyLeafObj_not_allLeavesEmpty]
  · intro item fs s hf hsk hs htrim
    rw [valHitCol]
    simp only [beq_self_eq_true, if_true]
    rw [aboutNestedHit, hf]
    simp only [truthy, if_true, propOf]
    rw [hsk]
    simp only [jsOrOpt, truthy, bne, hs, Bool.not_false, if_true]
    simp [jsToString, htrim]

/-- Witness for the amended C7: both parts applied at concrete records. -/
theorem c7_object_data_check_witness :
    (valHitCol c7aItem "amenities" = false
      ↔ allLeavesEmpty (.cons "x" (.vstr "") .nil) = true)
    ∧ valHitCol c7item "about" = false :=
  ⟨c7_object_data_check.1 c7aItem "amenities" (.cons "x" (.vstr "") .nil) rfl rfl,
    c7_object_data_check.2 c7item
      (.cons "short" (.vstr " ") (.cons "long" (.vstr "Hello") .nil)) " "
      rfl rfl rfl rfl⟩

theorem pushRow_label (l : String) (v : Val) (r : String × String)
    (h : pushRow l v = some r) : r.1 = l := by
  cases v with
  | vnull => simp [pushRow] at h
  | varr xs =>
    simp only [pushRow] at h
    split at h
    · simp at h
    · simp only [Option.some.injEq] at h
      rw [← h]
  | vbool b =>
    simp only [pushRow] at h
    split at h
    · simp at h
    · simp only [Option.some.injEq] at h
      rw [← h]
  | vnum n =>
    simp only [pushRow] at h
    split at h
    · simp at h
    · simp only [Option.some.injEq] at h
      rw [← h]
  | vstr s =>
    simp only [pushRow] at h
    split at h
    · simp at h
    · simp only [Option.some.injEq] at h
      rw [← h]
  | vobj fs =>
    simp only [pushRow] at h
    split at h
    · simp at h
    · simp only [Option.some.injEq] at h
      rw [← h]

theorem mem_optRow_label (l : String) (v : Val) (b : String × String)
    (hb : b ∈ (pushRow l v).toList) : b.1 = l := by
  rw [Option.mem_toList, Option.mem_def] at hb
  exact pushRow_label l v b hb

theorem cfgFieldRow_label (item : Item) (l : String) (k : Option String)
    (r : String × String) (h : cfgFieldRow item (l, k) = some r) : r.1 = l := by
  cases k with
  | none =>
    simp only [cfgFieldRow] at h
    split at h
    · split at h
      · exact pushRow_label _ _ _ h
      · simp at h
    · split at h
      · split at h
        · split at h
          · exact pushRow_label _ _ _ h
          · simp at h
        · simp at h
      · split at h
        · split at h
          · split at h
            · exact pushRow_label _ _ _ h
            · simp at h
          · simp at h
        · simp at h
  | some key =>
    simp only [cfgFieldRow] at h
    split at h
    · simp at h
    · simp at h
    · split at h
      · exact pushRow_label _ _ _ h
      · simp at h

theorem scanRow_not_shown (item : Item) (shown : List String) (s : String)
    (e : String × String) (h : scanRow item shown s = some e) :
    shown.contains (jsLower e.1) = false := by
  simp only [scanRow] at h
  split at h
  · simp at h
  · split at h
    · simp at h
    · simp at h
    · split at h
      · simp at h
      · split at h
        · simp at h
        · next hnc =>
          have hl := pushRow_label _ _ _ h
          rw [hl]
          simpa using hnc

theorem scanExtras_not_shown (item : Item) (shown : List String) :
    (keys : ValList) → (extras : List (String × String)) →
    scanExtras item shown keys = some extras →
    ∀ e ∈ extras, shown.contains (jsLower e.1) = false
  | .nil, extras, h => by
    simp only [scanExtras, Option.some.injEq] at h
    subst h
    intro e he
    simp at he
  | .cons (.vstr s) tl, extras, h => by
    rw [scanExtras] at h
    cases hrec : scanExtras item shown tl with
    | none =>
      rw [hrec] at h
      simp at h
    | some rest =>
      rw [hrec] at h
      simp only [Option.some.injEq] at h
      subst h
      intro e he
      rw [List.mem_append] at he
      rcases he with he | he
      · rw [Option.mem_toList, Option.mem_def] at he
        exact scanRow_not_shown item shown s e he
      · exact scanExtras_not_shown item shown tl rest hrec e he
  | .cons Val.vnull tl, extras, h => by
    simp only [scanExtras, truthy, Bool.false_eq_true, if_false] at h
    exact scanExtras_not_shown item shown tl extras h
  | .cons (.vbool b) tl, extras, h => by
    cases b with
    | false =>
      simp only [scanExtras, truthy, Bool.false_eq_true, if_false] at h
      exact scanExtras_not_shown item shown tl extras h
    | true => simp [scanExtras, truthy] at h
  | .cons (.vnum n) tl, extras, h => by
    by_cases hn : (n == 0) = true
    · simp only [scanExtras, truthy, bne, hn, Bool.not_true, Bool.false_eq_true,
        if_false] at h
      exact scanExtras_not_shown item shown tl extras h
    · simp [scanExtras, truthy, bne, hn] at h
  | .cons (.varr xs) tl, extras, h => by
    simp [scanExtras, truthy] at h
  | .cons (.vobj fs) tl, extras, h => by
    simp [scanExtras, truthy] at h

theorem lookupAssoc_mem {α : Type} : (l : List (String × α)) → (k : String) →
    (v : α) → lookupAssoc l k = some v → v ∈ l.map Prod.snd
  | [], k, v, h => by simp [lookupAssoc] at h
  | (k0, v0) :: rest, k, v, h => by
    rw [lookupAssoc] at h
    split at h
    · simp only [Option.some.injEq] at h
      subst h
      simp
    · have := lookupAssoc_mem rest k v h
      simp only [List.map_cons, List.mem_cons]
      exact Or.inr this

/-- Every label a details row can carry before the auto-extra scan. -/
def labelPool : List String :=
  [ "Category", "Venue", "Date", "Time", "Ticket Price", "Neighbourhood",
    "City / Country", "Price Range", "Tags", "Website", "Phone", "Coordinates" ]

theorem catFacts_labels_in_pool :
    ∀ cfg ∈ CATEGORY_FACTS.map Prod.snd, ∀ p ∈ cfg.fields, p.1 ∈ labelPool := by
  decide

theorem labelPool_trim : ∀ l ∈ labelPool, jsTrim l = l := by decide

theorem fallbackRows_label (item : Item) (b : String × String)
    (hb : b ∈ fallbackRows item) : b.1 ∈ labelPool := by
  simp only [fallbackRows, List.mem_append] at hb
  rcases hb with ((((hb | hb) | hb) | hb) | hb) | hb
  · split at hb
    · split at hb
      · rw [mem_optRow_label _ _ _ hb]; decide
      · simp at hb
    · simp at hb
  · split at hb
    · rw [mem_optRow_label _ _ _ hb]; decide
    · simp at hb
  · split at hb
    · split at hb
      · rw [mem_optRow_label _ _ _ hb]; decide
      · simp at hb
    · simp at hb
  · split at hb
    · rw [mem_optRow_label _ _ _ hb]; decide
    · simp at hb
  · split at hb
    · split at hb
      · rw [mem_optRow_label _ _ _ hb]; decide
      · simp at hb
    · simp at hb
  · split at hb
    · split at hb
      · rw [mem_optRow_label _ _ _ hb]; decide
      · simp at hb
    · simp at hb

theorem baseRows_label (item : Item) (cfgOpt : Option CatCfg)
    (b : String × String)
    (hcfg : ∀ cfg, cfgOpt = some cfg → cfg ∈ CATEGORY_FACTS.map Prod.snd)
    (hb : b ∈ baseRows item cfgOpt) : b.1 ∈ labelPool := by
  simp only [baseRows, List.mem_append] at hb
  rcases hb with (hb | hb) | hb
  · split at hb
    · rw [mem_optRow_label _ _ _ hb]; decide
    · simp at hb
  · cases cfgOpt with
    | some cfg =>
      obtain ⟨⟨l, k⟩, hmem, hrow⟩ := List.mem_filterMap.mp hb
      rw [cfgFieldRow_label item l k b hrow]
      exact catFacts_labels_in_pool cfg (hcfg cfg rfl) (l, k) hmem
    | none => exact fallbackRows_label item b hb
  · split at hb
    · split at hb
      · rw [mem_optRow_label _ _ _ hb]; decide
      · simp at hb
    · simp at hb

/-- Claim C8: no row emitted by the auto-extra scan carries a label that,
compared case-insensitively, equals the label of any row already produced
by the fact selector (Category, configured/fallback rows, Coordinates). -/
theorem c8_extras_never_duplicate_selector (item : Item)
    (cfgOpt : Option CatCfg) (extras : List (String × String))
    (e b : String × String)
    (hcfg : getCategoryConfigV (primaryCatV item) = some cfgOpt)
    (hscan : scanExtras item (shownLabels (baseRows item cfgOpt))
      (schemaKeys item) = some extras)
    (he : e ∈ extras) (hb : b ∈ baseRows item cfgOpt) :
    jsLower e.1 ≠ jsLower b.1 := by
  have hcfgmem : ∀ cfg, cfgOpt = some cfg → cfg ∈ CATEGORY_FACTS.map Prod.snd := by
    intro cfg heq
    subst heq
    unfold getCategoryConfigV at hcfg
    by_cases ht : truthy (primaryCatV item) = true
    · rw [if_pos ht] at hcfg
      cases hpv : primaryCatV item with
      | vstr s =>
        rw [hpv] at hcfg
        simp only [Option.some.injEq] at hcfg
        exact lookupAssoc_mem _ _ _ hcfg
      | vnull => rw [hpv] at hcfg; simp at hcfg
      | vbool b => rw [hpv] at hcfg; simp at hcfg
      | vnum n => rw [hpv] at hcfg; simp at hcfg
      | varr xs => rw [hpv] at hcfg; simp at hcfg
      | vobj fs => rw [hpv] at hcfg; simp at hcfg
    · rw [if_neg ht] at hcfg
      simp only [Option.some.injEq] at hcfg
      exact lookupAssoc_mem _ _ _ hcfg
  have hpool : b.1 ∈ labelPool := baseRows_label item cfgOpt b hcfgmem hb
  have hns : (shownLabels (baseRows item cfgOpt)).contains (jsLower e.1) = false :=
    scanExtras_not_shown item _ _ extras hscan e he
  intro heq
  have hmem : jsLower b.1 ∈ shownLabels (baseRows item cfgOpt) := by
    rw [shownLabels]
    have : jsLower (jsTrim b.1) = jsLower b.1 := by
      rw [labelPool_trim b.1 hpool]
    exact this ▸ List.mem_map_of_mem _ hb
  rw [heq] at hns
  rw [List.contains, Bool.eq_false_iff] at hns
  exact hns (List.elem_iff.mpr hmem)

/-- Witness for C8: the Hotels record with one extra schema key; the
emitted "Venue" row does not case-insensitively collide with the already
present "Category" row. -/
theorem c8_extras_never_duplicate_selector_witness :
    scanExtras c8item
        (shownLabels (baseRows c8item (lookupAssoc CATEGORY_FACTS "hotels")))
        (schemaKeys c8item) = some [("Venue", "X")]
    ∧ jsLower "Venue" ≠ jsLower "Category" := by
  refine ⟨rfl, ?_⟩
  exact c8_extras_never_duplicate_selector c8item
    (lookupAssoc CATEGORY_FACTS "hotels") [("Venue", "X")]
    ("Venue", "X") ("Category", "Hotels") rfl rfl
    (List.mem_singleton.mpr rfl) (List.mem_singleton.mpr rfl)

end BestMuscat
